import Mathlib

/-!
# Verification of the nazim platform-adapter layer

A shallow embedding, in Lean 4, of the pure core of the nazim service
manager (Go): the service descriptor and its validation
(`internal/service/service.go`), the name normalizer
(`internal/platform`), the three command escapers, and the effect traces
of the platform adapters' `Install`/`Uninstall` operations
(`internal/platform/{windows,linux,darwin}.go`).

Modelling conventions:
* Go strings are modelled as `List Char` (`GoStr`); `gs` converts a Lean
  string literal.  Go `len` on the ASCII names involved here coincides
  with the character count.
* `time.Duration` is an `Int` counting nanoseconds.  Go's
  `int(d.Minutes())` / `int(d.Seconds())` / `int(d.Hours())` truncate
  toward zero; for the non-negative durations reaching these call sites
  this is integer division, modelled with `Int.tdiv`.
* Filesystem writes and subprocess invocations performed by the adapters
  are modelled as explicit effect traces (`Effect`); environment-only
  failures (`MkdirAll`, `WriteFile` I/O errors, missing home directory)
  are outside the model, which records the write that would be attempted.
-/

deriving instance DecidableEq for Except

/-- A Go string, modelled as its list of characters. -/
abbrev GoStr := List Char

/-- Conversion from a Lean string literal to the Go-string model. -/
def gs (s : String) : GoStr := s.toList

/-- Go `strings.ReplaceAll(s, c, "")` for a single-character pattern `c`:
removes every occurrence of `c` from `s`. -/
def removeChar (c : Char) : GoStr → GoStr
  | [] => []
  | x :: xs => if x = c then removeChar c xs else x :: removeChar c xs

/-- Function `normalizeServiceName` (internal/platform): strips, in the source's
order, space, tab, LF, CR and the metacharacters
backslash, slash, colon, asterisk, question mark, double quote,
less-than, greater-than, pipe. -/
def normalizeServiceName (name : GoStr) : GoStr :=
  let n := name
  let n := removeChar ' ' n
  let n := removeChar '\t' n
  let n := removeChar '\n' n
  let n := removeChar '\r' n
  let n := removeChar '\\' n
  let n := removeChar '/' n
  let n := removeChar ':' n
  let n := removeChar '*' n
  let n := removeChar '?' n
  let n := removeChar '"' n
  let n := removeChar '<' n
  let n := removeChar '>' n
  let n := removeChar '|' n
  n

/-- The character set stripped by `normalizeServiceName`. -/
def strippedChars : List Char :=
  [' ', '\t', '\n', '\r', '\\', '/', ':', '*', '?', '"', '<', '>', '|']

/-! ## Service descriptor and validation (internal/service/service.go) -/

/-- Go `unicode.IsSpace` restricted to the Latin-1 range, which is what
`strings.TrimSpace` consults for the names at issue here. -/
def isGoSpace (c : Char) : Bool :=
  c = ' ' || c = '\t' || c = '\n' || c = '\x0b' || c = '\x0c' || c = '\r' ||
  c = '\u0085' || c = ' '

/-- Go `strings.TrimSpace`. -/
def trimSpace (s : GoStr) : GoStr :=
  ((s.dropWhile isGoSpace).reverse.dropWhile isGoSpace).reverse

/-- The service descriptor (`service.Service`).  `Interval` is
`time.Duration`, i.e. nanoseconds.  `OnLogon` is the field consulted by
the macOS adapter's `Install`. -/
structure Service where
  Name : GoStr
  Command : GoStr
  Args : List GoStr
  WorkDir : GoStr
  OnStartup : Bool
  OnLogon : Bool
  Interval : Int
  Enabled : Bool
  Platform : GoStr
deriving Repr, DecidableEq

/-- Method `Service.GetInterval`. -/
def Service.GetInterval (s : Service) : Int := s.Interval

/-- Go `strings.Contains s sub`: `sub` occurs as a contiguous substring
of `s`. -/
def goContains (s sub : GoStr) : Bool :=
  if sub.isPrefixOf s then true
  else
    match s with
    | [] => false
    | _ :: xs => goContains xs sub

/-- Function `validateServiceName` (internal/service/service.go): length bounds,
no leading/trailing whitespace, no `..`, no leading `.`, none of the
scheduler-hostile characters, no control characters.  Checks are in the
source's order; the first failing check's message is returned. -/
def validateServiceName (name : GoStr) : Except String Unit := do
  if name.length = 0 then
    throw "service name cannot be empty"
  if name.length > 255 then
    throw "service name too long"
  if trimSpace name ≠ name then
    throw "service name cannot have leading or trailing spaces"
  if trimSpace name = [] then
    throw "service name cannot be empty or only whitespace"
  if goContains name (gs "..") then
    throw "service name cannot contain '..' (path traversal attempt)"
  if (gs ".").isPrefixOf name then
    throw "service name cannot start with '.' (hidden files)"
  if name.contains '\\' then throw "service name cannot contain '\\'"
  if name.contains '/' then throw "service name cannot contain '/'"
  if name.contains ':' then throw "service name cannot contain ':'"
  if name.contains '*' then throw "service name cannot contain '*'"
  if name.contains '?' then throw "service name cannot contain '?'"
  if name.contains '"' then throw "service name cannot contain quote"
  if name.contains '<' then throw "service name cannot contain '<'"
  if name.contains '>' then throw "service name cannot contain '>'"
  if name.contains '|' then throw "service name cannot contain '|'"
  if name.contains '\n' then throw "service name cannot contain newline"
  if name.contains '\r' then throw "service name cannot contain CR"
  if name.contains '\t' then throw "service name cannot contain tab"
  if name.any (fun r => r.toNat < 32 || r.toNat = 127) then
    throw "service name cannot contain control characters"
  return ()

/-- Method `Service.Validate` (internal/service/service.go, current revision):
requires a non-empty valid name, a non-empty command, at least one of
`OnStartup` / non-zero `Interval`, and a non-negative `Interval`. -/
def Service.Validate (s : Service) : Except String Unit := do
  if s.Name = [] then
    throw "service name is required"
  match validateServiceName s.Name with
  | .error e => throw ("invalid service name: " ++ e)
  | .ok () => pure ()
  if s.Command = [] then
    throw "service command is required"
  if s.OnStartup = false ∧ s.Interval = 0 then
    throw "service must have either on_startup=true or an interval"
  if s.Interval < 0 then
    throw "interval cannot be negative"
  return ()

/-! ## Shared effect-trace model for the adapters -/

/-- One observable side effect of an adapter operation: a directory
creation, a file write/removal, a subprocess invocation (argv), or the
write of the Windows PowerShell logging wrapper (whose generated script
body none of the verified properties depend on, so only its path is
recorded). -/
inductive Effect where
  | mkdirAll (path : GoStr)
  | writeFile (path content : GoStr)
  | removeFile (path : GoStr)
  | runCmd (argv : List GoStr)
  | writeWrapper (path : GoStr)
deriving Repr, DecidableEq

/-- Apply one effect to a filesystem, modelled as a partial map from
path to file content.  Subprocess invocations and directory creations
leave the file map unchanged. -/
def applyEffect (fs : GoStr → Option GoStr) : Effect → (GoStr → Option GoStr)
  | .writeFile p c => fun q => if q = p then some c else fs q
  | .removeFile p => fun q => if q = p then none else fs q
  | .mkdirAll _ => fs
  | .runCmd _ => fs
  | .writeWrapper _ => fs

/-- Apply a trace of effects, left to right. -/
def applyEffects (fs : GoStr → Option GoStr) : List Effect → (GoStr → Option GoStr)
  | [] => fs
  | e :: rest => applyEffects (applyEffect fs e) rest

/-- Go `filepath.Join` for the clean, slash-free components the adapters
join on Unix-like targets. -/
def joinP (a b : GoStr) : GoStr := a ++ gs "/" ++ b

/-- Go `strings.ReplaceAll(s, c, r)` for a single-character pattern. -/
def replaceCharWith (c : Char) (r : GoStr) : GoStr → GoStr
  | [] => []
  | x :: xs => if x = c then r ++ replaceCharWith c r xs else x :: replaceCharWith c r xs

/-- Go `strings.ContainsAny s chars`. -/
def containsAnyOf (s chars : GoStr) : Bool := s.any (fun c => chars.contains c)

/-- Go `strings.Join xs sep` (separator between elements). -/
def strJoin (sep : GoStr) : List GoStr → GoStr
  | [] => []
  | [x] => x
  | x :: y :: xs => x ++ sep ++ strJoin sep (y :: xs)

/-- Go `fmt.Sprintf "%d"` of an integer. -/
def intStr (n : Int) : GoStr := (toString n).toList

/-! ## Linux adapter (internal/platform/linux.go) -/

/-- Go `time.Second` in nanoseconds. -/
def nsPerSecond : Int := 1000000000

/-- Go `time.Minute` in nanoseconds. -/
def nsPerMinute : Int := 60000000000

/-- Go `time.Hour` in nanoseconds. -/
def nsPerHour : Int := 3600000000000

/-- Function `formatSystemdDuration`: seconds below one minute, whole minutes
below one hour, whole hours otherwise.  `Int.tdiv` models Go's
`int(...)` truncation of the float quotient. -/
def formatSystemdDuration (d : Int) : GoStr :=
  if d < nsPerMinute then intStr (d.tdiv nsPerSecond) ++ gs "s"
  else if d < nsPerHour then intStr (d.tdiv nsPerMinute) ++ gs "m"
  else intStr (d.tdiv nsPerHour) ++ gs "h"

/-- Function `quoteSystemdArg`: C-style escaping of backslash, double quote,
newline, carriage return and tab, in the source's order, then wrapping
in double quotes. -/
def quoteSystemdArg (s : GoStr) : GoStr :=
  let t := replaceCharWith '\\' (gs "\\\\") s
  let t := replaceCharWith '"' (gs "\\\"") t
  let t := replaceCharWith '\n' (gs "\\n") t
  let t := replaceCharWith '\r' (gs "\\r") t
  let t := replaceCharWith '\t' (gs "\\t") t
  gs "\"" ++ t ++ gs "\""

/-- Function `escapeSystemdValue`: newlines and carriage returns replaced by
spaces (for `Description=` / `WorkingDirectory=` values). -/
def escapeSystemdValue (s : GoStr) : GoStr :=
  replaceCharWith '\r' (gs " ") (replaceCharWith '\n' (gs " ") s)

/-- Go `filepath.IsAbs` on Linux: the path starts with a slash. -/
def filepathIsAbs (p : GoStr) : Bool := (gs "/").isPrefixOf p

/-- Per-argument half of `escapeSystemdExec`'s loop: reject any argument
containing a newline or carriage return, quote the rest. -/
def quoteSystemdArgs : List GoStr → Except String (List GoStr)
  | [] => .ok []
  | a :: rest =>
    if containsAnyOf a (gs "\n\r") then .error "argument cannot contain newlines"
    else
      match quoteSystemdArgs rest with
      | .error e => .error e
      | .ok qs => .ok (quoteSystemdArg a :: qs)

/-- Function `escapeSystemdExec`: rejects a command containing newline/CR,
resolves the command to an absolute path (`exec.LookPath`, falling back
to `filepath.Abs`, both supplied as oracles for the process
environment), quotes command and arguments, and emits the `ExecStart=`
line. -/
def escapeSystemdExec (lookPath absPath : GoStr → Option GoStr)
    (command : GoStr) (args : List GoStr) : Except String GoStr := do
  if containsAnyOf command (gs "\n\r") then
    throw "command cannot contain newlines"
  let cmdPath ←
    if filepathIsAbs command then pure command
    else
      match lookPath command with
      | some p => pure p
      | none =>
        match absPath command with
        | some p => pure p
        | none => throw "cannot resolve command path"
  let quotedCmd := quoteSystemdArg cmdPath
  let quotedArgs ← quoteSystemdArgs args
  return gs "ExecStart=" ++ strJoin (gs " ") (quotedCmd :: quotedArgs)

/-- The directory `~/.config/systemd/user` for a given home directory. -/
def userSystemdDir (home : GoStr) : GoStr := joinP home (gs ".config/systemd/user")

/-- The directory `~/.nazim/logs` for a given home directory. -/
def linuxLogDir (home : GoStr) : GoStr := joinP home (gs ".nazim/logs")

/-- Path of the per-service log file used on Linux. -/
def linuxLogPath (home name : GoStr) : GoStr :=
  joinP (linuxLogDir home) (normalizeServiceName name ++ gs ".log")

/-- Path of the `nazim-<safeName>.service` unit file. -/
def linuxServicePath (home name : GoStr) : GoStr :=
  joinP (userSystemdDir home) (gs "nazim-" ++ normalizeServiceName name ++ gs ".service")

/-- Path of the `nazim-<safeName>.timer` unit file. -/
def linuxTimerPath (home name : GoStr) : GoStr :=
  joinP (userSystemdDir home) (gs "nazim-" ++ normalizeServiceName name ++ gs ".timer")

/-- The `.service` unit body written by `installSystemd` (including the
`[Install]` section that both writing branches append). -/
def linuxServiceContent (home : GoStr) (svc : Service) (execLine : GoStr) : GoStr :=
  gs "[Unit]\nDescription=Nazim Service: " ++ escapeSystemdValue svc.Name ++
  gs "\nAfter=network.target\n\n[Service]\nType=oneshot\n" ++
  execLine ++ gs "\n" ++
  (if svc.WorkDir ≠ [] then
    gs "WorkingDirectory=" ++ escapeSystemdValue svc.WorkDir ++ gs "\n"
  else []) ++
  gs "StandardOutput=append:" ++ linuxLogPath home svc.Name ++ gs "\n" ++
  gs "StandardError=append:" ++ linuxLogPath home svc.Name ++ gs "\n\n" ++
  gs "[Install]\nWantedBy=default.target\n"

/-- The `.timer` unit body written by `installSystemd` in the interval
case. -/
def linuxTimerContent (svc : Service) : GoStr :=
  gs "[Unit]\nDescription=Timer for Nazim Service: " ++ escapeSystemdValue svc.Name ++
  gs "\n\n[Timer]\nOnBootSec=" ++ formatSystemdDuration svc.GetInterval ++
  gs "\nOnUnitActiveSec=" ++ formatSystemdDuration svc.GetInterval ++
  gs "\n\n[Install]\nWantedBy=timers.target\n"

/-- Function `installSystemd` (the Linux adapter's `Install`): creates the
systemd and log directories, escapes the command, then — only when the
interval is positive, or when `OnStartup` holds with a zero interval —
writes the unit file(s) and drives `systemctl --user`.  The result is
the trace of effects in source order; the only modelled error is the
escaping failure (environment I/O errors are outside the model, and
`systemctl` invocations are recorded as attempted). -/
def installSystemd (lookPath absPath : GoStr → Option GoStr)
    (home : GoStr) (svc : Service) : Except String (List Effect) := do
  let dirs : List Effect :=
    [.mkdirAll (userSystemdDir home), .mkdirAll (linuxLogDir home)]
  let execLine ←
    match escapeSystemdExec lookPath absPath svc.Command svc.Args with
    | .error e => throw ("failed to escape command: " ++ e)
    | .ok l => pure l
  let norm := normalizeServiceName svc.Name
  if svc.GetInterval > 0 then
    return dirs ++
      [.writeFile (linuxServicePath home svc.Name) (linuxServiceContent home svc execLine),
       .writeFile (linuxTimerPath home svc.Name) (linuxTimerContent svc),
       .runCmd [gs "systemctl", gs "--user", gs "daemon-reload"],
       .runCmd [gs "systemctl", gs "--user", gs "enable", gs "nazim-" ++ norm ++ gs ".timer"],
       .runCmd [gs "systemctl", gs "--user", gs "start", gs "nazim-" ++ norm ++ gs ".timer"]]
  else if svc.OnStartup = true ∧ svc.GetInterval = 0 then
    return dirs ++
      [.writeFile (linuxServicePath home svc.Name) (linuxServiceContent home svc execLine),
       .runCmd [gs "systemctl", gs "--user", gs "daemon-reload"],
       .runCmd [gs "systemctl", gs "--user", gs "enable", gs "nazim-" ++ norm ++ gs ".service"]]
  else
    return dirs

/-- Effect trace of the Linux `Uninstall`: stop and disable the timer
and service units, remove both unit files, then `daemon-reload`. -/
def linuxUninstallEffects (home name : GoStr) : List Effect :=
  [.runCmd [gs "systemctl", gs "--user", gs "stop",
     gs "nazim-" ++ normalizeServiceName name ++ gs ".timer"],
   .runCmd [gs "systemctl", gs "--user", gs "disable",
     gs "nazim-" ++ normalizeServiceName name ++ gs ".timer"],
   .runCmd [gs "systemctl", gs "--user", gs "stop",
     gs "nazim-" ++ normalizeServiceName name ++ gs ".service"],
   .runCmd [gs "systemctl", gs "--user", gs "disable",
     gs "nazim-" ++ normalizeServiceName name ++ gs ".service"],
   .removeFile (linuxServicePath home name),
   .removeFile (linuxTimerPath home name),
   .runCmd [gs "systemctl", gs "--user", gs "daemon-reload"]]

/-! ## Windows adapter (internal/platform/windows.go) -/

/-- Function `escapeWindowsCommand`: a token containing space, tab, double quote
or one of the cmd metacharacters is wrapped in double quotes with
embedded quotes doubled; all other tokens are returned unchanged. -/
def escapeWindowsCommand (s : GoStr) : GoStr :=
  if containsAnyOf s (gs " \t\"&|<>()") then
    gs "\"" ++ replaceCharWith '"' (gs "\"\"") s ++ gs "\""
  else s

/-- Function `buildWindowsCommand`: the escaped command followed by the escaped
arguments, space-joined. -/
def buildWindowsCommand (cmd : GoStr) (args : List GoStr) : GoStr :=
  let escapedCmd := escapeWindowsCommand cmd
  if args = [] then escapedCmd
  else escapedCmd ++ gs " " ++ strJoin (gs " ") (args.map escapeWindowsCommand)

/-- Function `escapeWindowsPath`: always wrapped in double quotes, embedded
quotes doubled. -/
def escapeWindowsPath (p : GoStr) : GoStr :=
  gs "\"" ++ replaceCharWith '"' (gs "\"\"") p ++ gs "\""

/-- The Task Scheduler task name `Nazim_<safeName>`. -/
def windowsTaskName (name : GoStr) : GoStr :=
  gs "Nazim_" ++ normalizeServiceName name

/-- The directory `%APPDATA%\nazim\logs`. -/
def windowsLogDir (appdata : GoStr) : GoStr := appdata ++ gs "\\nazim\\logs"

/-- Per-service log file `<logdir>\<safeName>.log`. -/
def windowsLogPath (appdata name : GoStr) : GoStr :=
  windowsLogDir appdata ++ gs "\\" ++ normalizeServiceName name ++ gs ".log"

/-- Path of the PowerShell logging wrapper
`%APPDATA%\nazim\wrappers\<safeName>-wrapper.ps1`. -/
def windowsWrapperPath (appdata name : GoStr) : GoStr :=
  appdata ++ gs "\\nazim\\wrappers\\" ++ normalizeServiceName name ++ gs "-wrapper.ps1"

/-- The `/tr` value: the PowerShell invocation of the logging wrapper. -/
def windowsCommandWithLogs (wrapperPath : GoStr) : GoStr :=
  gs "powershell -NoProfile -ExecutionPolicy Bypass -File \"" ++ wrapperPath ++ gs "\""

/-- Go `int(svc.GetInterval().Minutes())`. -/
def intervalMinutes (d : Int) : Int := d.tdiv nsPerMinute

/-- The schedule flags appended by the Windows `Install`: with a
positive interval of at least one whole minute, `/sc onstart /ri <n>`
when `OnStartup` is also set and `/sc minute /mo <n>` otherwise; with
no positive interval, `/sc onstart` exactly when `OnStartup` is set. -/
def windowsScheduleArgs (svc : Service) : List GoStr :=
  if svc.GetInterval > 0 then
    if intervalMinutes svc.GetInterval > 0 then
      if svc.OnStartup then
        [gs "/sc", gs "onstart", gs "/ri", intStr (intervalMinutes svc.GetInterval)]
      else
        [gs "/sc", gs "minute", gs "/mo", intStr (intervalMinutes svc.GetInterval)]
    else []
  else if svc.OnStartup then [gs "/sc", gs "onstart"]
  else []

/-- The full argument list passed to `schtasks` by the Windows
`Install`. -/
def windowsCreateArgs (appdata : GoStr) (svc : Service) : List GoStr :=
  [gs "/create",
   gs "/tn", windowsTaskName svc.Name,
   gs "/tr", windowsCommandWithLogs (windowsWrapperPath appdata svc.Name),
   gs "/f"] ++ windowsScheduleArgs svc

/-- Effect trace of the Windows `Uninstall` (admin path, non-failing
outcomes): delete the scheduled task (a "does not exist" outcome is
treated as success), then remove the logging wrapper script. -/
def windowsUninstallEffects (appdata name : GoStr) : List Effect :=
  [.runCmd [gs "schtasks", gs "/delete", gs "/tn", windowsTaskName name, gs "/f"],
   .removeFile (windowsWrapperPath appdata name)]

/-- Effect trace of the Windows `Install` on the elevated (admin) path:
best-effort `Uninstall` of the same-named task first, then log
directory creation, wrapper write and the `schtasks /create ... /f`
invocation. -/
def windowsInstallEffects (appdata : GoStr) (svc : Service) : List Effect :=
  windowsUninstallEffects appdata svc.Name ++
  [.mkdirAll (windowsLogDir appdata),
   .writeWrapper (windowsWrapperPath appdata svc.Name),
   .runCmd (gs "schtasks" :: windowsCreateArgs appdata svc)]

/-- The Windows `Install` on the elevated path: it never rejects a
descriptor itself (validation happened upstream); the returned value is
its effect trace. -/
def windowsInstall (appdata : GoStr) (svc : Service) : Except String (List Effect) :=
  .ok (windowsInstallEffects appdata svc)

/-! ## macOS adapter (internal/platform/darwin.go) -/

/-- Function `escapeXML`: the five XML entities, replaced in the source's order
(`&` first). -/
def escapeXML (s : GoStr) : GoStr :=
  let t := replaceCharWith '&' (gs "&amp;") s
  let t := replaceCharWith '<' (gs "&lt;") t
  let t := replaceCharWith '>' (gs "&gt;") t
  let t := replaceCharWith '"' (gs "&quot;") t
  let t := replaceCharWith '\'' (gs "&apos;") t
  t

/-- The launchd label `com.nazim.<safeName>`. -/
def darwinLabel (name : GoStr) : GoStr :=
  gs "com.nazim." ++ normalizeServiceName name

/-- The directory `~/Library/LaunchAgents`. -/
def darwinAgentsDir (home : GoStr) : GoStr :=
  joinP (joinP home (gs "Library")) (gs "LaunchAgents")

/-- The file `~/Library/LaunchAgents/com.nazim.<safeName>.plist`. -/
def darwinPlistPath (home name : GoStr) : GoStr :=
  joinP (darwinAgentsDir home) (gs "com.nazim." ++ normalizeServiceName name ++ gs ".plist")

/-- The directory `~/.nazim/logs` on macOS. -/
def darwinLogDir (home : GoStr) : GoStr := joinP home (gs ".nazim/logs")

/-- The plist XML written by the macOS `Install`. -/
def darwinPlistContent (home : GoStr) (svc : Service) : GoStr :=
  gs "<?xml version=\"1.0\" encoding=\"UTF-8\"?>\n" ++
  gs "<!DOCTYPE plist PUBLIC \"-//Apple//DTD PLIST 1.0//EN\" \"http://www.apple.com/DTDs/PropertyList-1.0.dtd\">\n" ++
  gs "<plist version=\"1.0\">\n<dict>\n" ++
  gs "  <key>Label</key>\n  <string>" ++ darwinLabel svc.Name ++ gs "</string>\n" ++
  gs "  <key>ProgramArguments</key>\n  <array>\n" ++
  gs "    <string>" ++ escapeXML svc.Command ++ gs "</string>\n" ++
  (svc.Args.map (fun a => gs "    <string>" ++ escapeXML a ++ gs "</string>\n")).flatten ++
  gs "  </array>\n" ++
  (if svc.WorkDir ≠ [] then
    gs "  <key>WorkingDirectory</key>\n  <string>" ++ escapeXML svc.WorkDir ++ gs "</string>\n"
  else []) ++
  (if svc.OnStartup || svc.OnLogon then gs "  <key>RunAtLoad</key>\n  <true/>\n" else []) ++
  (if svc.GetInterval > 0 then
    gs "  <key>StartInterval</key>\n  <integer>" ++ intStr (svc.GetInterval.tdiv nsPerSecond) ++ gs "</integer>\n"
  else []) ++
  gs "  <key>StandardOutPath</key>\n  <string>" ++
    joinP (darwinLogDir home) (normalizeServiceName svc.Name ++ gs ".out") ++ gs "</string>\n" ++
  gs "  <key>StandardErrorPath</key>\n  <string>" ++
    joinP (darwinLogDir home) (normalizeServiceName svc.Name ++ gs ".err") ++ gs "</string>\n" ++
  gs "</dict>\n</plist>\n"

/-- Effect trace of the macOS `Install` (the once-retried
`launchctl load` is recorded as the load attempt): write the plist at
its deterministic path, then load it. -/
def darwinInstallEffects (home : GoStr) (svc : Service) : List Effect :=
  [.mkdirAll (darwinAgentsDir home),
   .mkdirAll (darwinLogDir home),
   .writeFile (darwinPlistPath home svc.Name) (darwinPlistContent home svc),
   .runCmd [gs "launchctl", gs "load", darwinPlistPath home svc.Name]]

/-- Function `GetTaskState` of the macOS adapter, as a function of the
`launchctl list` output and whether the plist file exists on disk:
label listed → `Enabled`; not listed but plist present → `Disabled`;
neither → the not-found error. -/
def darwinGetTaskState (name listOutput : GoStr) (plistExists : Bool) :
    Except String GoStr :=
  if goContains listOutput (darwinLabel name) then .ok (gs "Enabled")
  else if plistExists then .ok (gs "Disabled")
  else .error "agent not found"

/-! ## Windows command-line re-tokenization (for the round-trip property) -/

/-- Tokenizer mode: outside any quoted span, inside a quoted span, or
just after a quote character seen inside a quoted span (deciding between
a doubled literal quote and a closing quote). -/
inductive TokMode where
  | out
  | inq
  | afterq
deriving Repr, DecidableEq

/-- Modelled from the spec: the Windows command-line tokenizer that the
spec's round-trip property re-applies to the escaper's output.  This
component is external to the repository (it is the consumer of the
`schtasks /tr` command line).  Outside a quoted span, runs of spaces and
tabs separate tokens and a double quote opens a quoted span; inside a
quoted span every character is literal except the double quote, where a
doubled quote (`""`, the escaper's encoding) denotes one literal quote
and a single quote closes the span.  `cur` is the token accumulated so
far, `none` when no token has started. -/
def tokenizeAux : List Char → TokMode → Option GoStr → List GoStr
  | [], _, none => []
  | [], _, some t => [t]
  | c :: rest, .out, cur =>
    if c = '"' then tokenizeAux rest .inq (some (cur.getD []))
    else if c = ' ' || c = '\t' then
      (match cur with
       | none => tokenizeAux rest .out none
       | some t => t :: tokenizeAux rest .out none)
    else tokenizeAux rest .out (some (cur.getD [] ++ [c]))
  | c :: rest, .inq, cur =>
    if c = '"' then tokenizeAux rest .afterq cur
    else tokenizeAux rest .inq (some (cur.getD [] ++ [c]))
  | c :: rest, .afterq, cur =>
    if c = '"' then tokenizeAux rest .inq (some (cur.getD [] ++ ['"']))
    else if c = ' ' || c = '\t' then
      (match cur with
       | none => tokenizeAux rest .out none
       | some t => t :: tokenizeAux rest .out none)
    else tokenizeAux rest .out (some (cur.getD [] ++ [c]))

/-- Tokenize a full command line (initial state: outside quotes, no
token started). -/
def tokenizeWindows (s : GoStr) : List GoStr := tokenizeAux s .out none

/-! ## Helper lemmas and claim theorems -/

theorem removeChar_eq_filter (c : Char) (s : GoStr) :
    removeChar c s = s.filter (fun x => x ≠ c) := by
  induction s with
  | nil => rfl
  | cons x xs ih =>
    by_cases h : x = c <;> simp [removeChar, h, List.filter, ih]

theorem normalizeServiceName_eq_filter (s : GoStr) :
    normalizeServiceName s = s.filter (fun x => !strippedChars.contains x) := by
  simp only [normalizeServiceName, removeChar_eq_filter, List.filter_filter]
  apply List.filter_congr
  intro x _
  rw [Bool.eq_iff_iff]
  simp [strippedChars]
  tauto

/-- C1 (counterexample): a descriptor with `OnStartup = true` and a
positive one-hour `Interval` passes `Validate` — the claimed rejection
of the dual-trigger state does not happen. -/
theorem validate_accepts_both_triggers :
    (Service.mk (gs "backup") (gs "run") [] [] true false (3600 * 1000000000) true []).Validate
      = Except.ok () ∧
    (Service.mk (gs "backup") (gs "run") [] [] true false (3600 * 1000000000) true []).OnStartup
      = true ∧
    (0 : Int) <
      (Service.mk (gs "backup") (gs "run") [] [] true false (3600 * 1000000000) true []).Interval := by
  refine ⟨by decide, rfl, by norm_num⟩

/-- C1 (amended): `Validate` succeeds exactly when the name passes
`validateServiceName`, the command is non-empty, at least one trigger is
set (`OnStartup`, or a non-zero interval), and the interval is
non-negative; in particular `OnStartup` together with a positive
interval is accepted, so the trigger forms are not mutually
exclusive at validation time. -/
theorem validate_ok_iff (s : Service) :
    s.Validate = .ok () ↔
      (validateServiceName s.Name = .ok () ∧ s.Command ≠ [] ∧
        (s.OnStartup = true ∨ s.Interval ≠ 0) ∧ 0 ≤ s.Interval) := by
  by_cases hn : s.Name = []
  · simp [Service.Validate, hn, pure, Except.pure, Bind.bind, Except.bind,
      throw, throwThe, MonadExceptOf.throw,
      show validateServiceName [] = Except.error "service name cannot be empty" from rfl]
  · rcases h : validateServiceName s.Name with e | u
    · simp [Service.Validate, hn, h, pure, Except.pure, Bind.bind, Except.bind,
        throw, throwThe, MonadExceptOf.throw]
    · simp only [Service.Validate, hn, h, if_neg hn, pure, Except.pure, Bind.bind, Except.bind,
        throw, throwThe, MonadExceptOf.throw]
      split_ifs with h1 h2 h3 <;>
        simp_all [pure, Except.pure, Bool.not_eq_false, Bool.not_eq_true] <;>
        first
          | omega
          | tauto
          | (cases hb : s.OnStartup <;> simp_all)

/-- C4: `normalizeServiceName` removes exactly the thirteen characters
of `strippedChars` (space, tab, CR, LF and the nine metacharacters) and
nothing else: it equals the filter keeping all other characters, its
result never contains a stripped character, and an input free of them is
returned unchanged.  It is total by construction. -/
theorem normalizeServiceName_exact (s : GoStr) :
    normalizeServiceName s = s.filter (fun c => !strippedChars.contains c) ∧
    (∀ c ∈ normalizeServiceName s, c ∉ strippedChars) ∧
    ((∀ c ∈ s, c ∉ strippedChars) → normalizeServiceName s = s) := by
  refine ⟨normalizeServiceName_eq_filter s, ?_, ?_⟩
  · intro c hc
    rw [normalizeServiceName_eq_filter] at hc
    simp only [List.mem_filter, Bool.not_eq_true'] at hc
    simpa using hc.2
  · intro h
    rw [normalizeServiceName_eq_filter]
    apply List.filter_eq_self.mpr
    intro c hc
    simpa using h c hc

/-- C4 (witness): concrete evaluations of the normalizer through the
theorem above. -/
theorem normalizeServiceName_exact_witness :
    normalizeServiceName (gs "a b:c") = gs "abc" ∧
    normalizeServiceName (gs "abc") = gs "abc" := by
  refine ⟨?_, (normalizeServiceName_exact (gs "abc")).2.2 (by decide)⟩
  rw [(normalizeServiceName_exact (gs "a b:c")).1]
  decide

/-- C8: the macOS `GetTaskState` is a trichotomy on (label listed,
plist exists): listed → `Enabled`; not listed but plist present →
`Disabled`; neither → the distinct not-found error, which is never the
`Disabled` value. -/
theorem darwinGetTaskState_trichotomy (name out : GoStr) (pe : Bool) :
    (goContains out (darwinLabel name) = true →
      darwinGetTaskState name out pe = .ok (gs "Enabled")) ∧
    (goContains out (darwinLabel name) = false → pe = true →
      darwinGetTaskState name out pe = .ok (gs "Disabled")) ∧
    (goContains out (darwinLabel name) = false → pe = false →
      darwinGetTaskState name out pe = .error "agent not found") ∧
    (Except.error "agent not found" ≠ (Except.ok (gs "Disabled") : Except String GoStr)) := by
  refine ⟨fun h1 => ?_, fun h1 h2 => ?_, fun h1 h2 => ?_, by simp⟩ <;>
    · simp [darwinGetTaskState, h1, *]

/-- C8 (witness): the three branches at concrete inputs. -/
theorem darwinGetTaskState_trichotomy_witness :
    darwinGetTaskState (gs "backup") (gs "x com.nazim.backup 17") true = .ok (gs "Enabled") ∧
    darwinGetTaskState (gs "backup") (gs "nothing here") true = .ok (gs "Disabled") ∧
    darwinGetTaskState (gs "backup") (gs "nothing here") false = .error "agent not found" := by
  exact ⟨(darwinGetTaskState_trichotomy (gs "backup") (gs "x com.nazim.backup 17") true).1 (by decide),
    (darwinGetTaskState_trichotomy (gs "backup") (gs "nothing here") true).2.1 (by decide) rfl,
    (darwinGetTaskState_trichotomy (gs "backup") (gs "nothing here") false).2.2.1 (by decide) rfl⟩

/-- C2 (counterexample): for a descriptor with `OnStartup = true` and a
two-minute interval, the Windows `Install` does not fail: it returns its
effect trace and schedules `/sc onstart /ri 2`, silently combining the
two triggers instead of rejecting the state. -/
theorem windows_dual_trigger_repeats :
    windowsScheduleArgs (Service.mk (gs "sync") (gs "run") [] [] true false (120 * 1000000000) true [])
      = [gs "/sc", gs "onstart", gs "/ri", gs "2"] ∧
    windowsInstall (gs "C:\\AD") (Service.mk (gs "sync") (gs "run") [] [] true false (120 * 1000000000) true [])
      = .ok (windowsInstallEffects (gs "C:\\AD") (Service.mk (gs "sync") (gs "run") [] [] true false (120 * 1000000000) true [])) ∧
    (Service.mk (gs "sync") (gs "run") [] [] true false (120 * 1000000000) true []).OnStartup = true ∧
    (0 : Int) < (Service.mk (gs "sync") (gs "run") [] [] true false (120 * 1000000000) true []).GetInterval := by
  refine ⟨by decide, rfl, rfl, by norm_num [Service.GetInterval]⟩

/-- C2 (amended): the schedule flags as a function of the descriptor —
interval of at least one whole minute without `OnStartup` gives
`/sc minute /mo <n>`; no positive interval with `OnStartup` gives
`/sc onstart`; both triggers give `/sc onstart /ri <n>` (repeat
interval) rather than an error; a positive sub-minute interval yields no
schedule flags at all; and `Install` always returns its effect trace,
never an error, on the elevated path. -/
theorem windowsScheduleArgs_cases (appdata : GoStr) (svc : Service) :
    (svc.GetInterval > 0 → intervalMinutes svc.GetInterval > 0 → svc.OnStartup = false →
      windowsScheduleArgs svc = [gs "/sc", gs "minute", gs "/mo", intStr (intervalMinutes svc.GetInterval)]) ∧
    (svc.GetInterval ≤ 0 → svc.OnStartup = true →
      windowsScheduleArgs svc = [gs "/sc", gs "onstart"]) ∧
    (svc.GetInterval > 0 → intervalMinutes svc.GetInterval > 0 → svc.OnStartup = true →
      windowsScheduleArgs svc = [gs "/sc", gs "onstart", gs "/ri", intStr (intervalMinutes svc.GetInterval)]) ∧
    (svc.GetInterval > 0 → intervalMinutes svc.GetInterval = 0 →
      windowsScheduleArgs svc = []) ∧
    windowsCreateArgs appdata svc =
      [gs "/create", gs "/tn", windowsTaskName svc.Name,
       gs "/tr", windowsCommandWithLogs (windowsWrapperPath appdata svc.Name),
       gs "/f"] ++ windowsScheduleArgs svc ∧
    windowsInstall appdata svc = .ok (windowsInstallEffects appdata svc) := by
  refine ⟨fun h1 h2 h3 => ?_, fun h1 h2 => ?_, fun h1 h2 h3 => ?_, fun h1 h2 => ?_, rfl, rfl⟩ <;>
    simp [windowsScheduleArgs, *]

/-- C2 (witness): the three flag shapes at concrete descriptors. -/
theorem windowsScheduleArgs_cases_witness :
    windowsScheduleArgs (Service.mk (gs "a") (gs "c") [] [] false false (300 * 1000000000) true [])
      = [gs "/sc", gs "minute", gs "/mo", gs "5"] ∧
    windowsScheduleArgs (Service.mk (gs "a") (gs "c") [] [] true false 0 true [])
      = [gs "/sc", gs "onstart"] ∧
    windowsScheduleArgs (Service.mk (gs "a") (gs "c") [] [] false false (30 * 1000000000) true [])
      = [] := by
  refine ⟨?_, ?_, ?_⟩
  · have h := (windowsScheduleArgs_cases (gs "x")
      (Service.mk (gs "a") (gs "c") [] [] false false (300 * 1000000000) true [])).1
      (by norm_num [Service.GetInterval]) (by decide) rfl
    rw [h]; decide
  · exact (windowsScheduleArgs_cases (gs "x")
      (Service.mk (gs "a") (gs "c") [] [] true false 0 true [])).2.1
      (by norm_num [Service.GetInterval]) rfl
  · exact (windowsScheduleArgs_cases (gs "x")
      (Service.mk (gs "a") (gs "c") [] [] false false (30 * 1000000000) true [])).2.2.2.1
      (by norm_num [Service.GetInterval]) (by decide)

set_option maxRecDepth 4000 in
/-- C9: the normalizer is not injective — `"init script"` and
`"initscript"` are distinct names with the same normalization, hence
the same Windows task name, plist path and log path; installing the
second on macOS overwrites the first's plist with the second's
content. -/
theorem normalize_name_collision :
    gs "init script" ≠ gs "initscript" ∧
    normalizeServiceName (gs "init script") = normalizeServiceName (gs "initscript") ∧
    windowsTaskName (gs "init script") = windowsTaskName (gs "initscript") ∧
    darwinPlistPath (gs "/Users/u") (gs "init script") = darwinPlistPath (gs "/Users/u") (gs "initscript") ∧
    linuxLogPath (gs "/home/u") (gs "init script") = linuxLogPath (gs "/home/u") (gs "initscript") ∧
    applyEffects
      (applyEffects (fun _ => none)
        (darwinInstallEffects (gs "/Users/u")
          (Service.mk (gs "init script") (gs "/bin/a") [] [] true false 0 true [])))
      (darwinInstallEffects (gs "/Users/u")
        (Service.mk (gs "initscript") (gs "/bin/b") [] [] true false 0 true []))
      (darwinPlistPath (gs "/Users/u") (gs "init script"))
      = some (darwinPlistContent (gs "/Users/u")
          (Service.mk (gs "initscript") (gs "/bin/b") [] [] true false 0 true [])) := by
  refine ⟨by decide, by decide, by decide, by decide, by decide, by decide⟩

/-- C10: a descriptor that bypassed validation with `OnStartup = false`
and a non-positive interval makes the Linux `Install` report success
while writing no unit file and running no `systemctl` command — the
escaped `ExecStart` line is built and discarded. -/
theorem installSystemd_silent_noop (lp ap : GoStr → Option GoStr) (home : GoStr)
    (svc : Service) (e : GoStr)
    (h1 : svc.OnStartup = false) (h2 : svc.GetInterval ≤ 0)
    (h3 : escapeSystemdExec lp ap svc.Command svc.Args = .ok e) :
    installSystemd lp ap home svc =
      .ok [.mkdirAll (userSystemdDir home), .mkdirAll (linuxLogDir home)] ∧
    (∀ p c, Effect.writeFile p c ∉
      [Effect.mkdirAll (userSystemdDir home), Effect.mkdirAll (linuxLogDir home)]) ∧
    (∀ argv, Effect.runCmd argv ∉
      [Effect.mkdirAll (userSystemdDir home), Effect.mkdirAll (linuxLogDir home)]) := by
  have hni : ¬ svc.GetInterval > 0 := by omega
  have hns : ¬ (svc.OnStartup = true ∧ svc.GetInterval = 0) := by simp [h1]
  refine ⟨?_, by simp, by simp⟩
  simp [installSystemd, h3, hni, hns, pure, Except.pure, Bind.bind, Except.bind]

/-- C10 (witness): the no-op at a concrete bypassing descriptor. -/
theorem installSystemd_silent_noop_witness :
    installSystemd (fun _ => none) (fun _ => none) (gs "/home/u")
      (Service.mk (gs "late") (gs "/bin/x") [] [] false false 0 true []) =
      .ok [.mkdirAll (userSystemdDir (gs "/home/u")), .mkdirAll (linuxLogDir (gs "/home/u"))] :=
  (installSystemd_silent_noop (fun _ => none) (fun _ => none) (gs "/home/u")
    (Service.mk (gs "late") (gs "/bin/x") [] [] false false 0 true [])
    (gs "ExecStart=\"/bin/x\"") rfl (by norm_num [Service.GetInterval]) (by decide)).1

theorem linuxServicePath_ne_timerPath (home n : GoStr) :
    linuxServicePath home n ≠ linuxTimerPath home n := by
  intro h
  have hl := congrArg List.length h
  simp only [linuxServicePath, linuxTimerPath, joinP, List.length_append] at hl
  have h8 : (gs ".service").length = 8 := by decide
  have h6 : (gs ".timer").length = 6 := by decide
  omega

/-- C7: with a positive interval and a successfully escaped command, the
Linux `Install` writes the `.service` unit (whose body carries
`Type=oneshot` immediately followed by the escaped `ExecStart` line) and
the `.timer` unit (whose `OnBootSec` and `OnUnitActiveSec` both equal
the `formatSystemdDuration`-formatted interval), then runs
`daemon-reload`, `enable` and `start` on the timer unit; in the
startup-only case it writes the service unit and runs `daemon-reload`
and `enable` on the service unit, starting nothing. -/
theorem installSystemd_interval_trace (lp ap : GoStr → Option GoStr) (home : GoStr)
    (svc : Service) (e : GoStr)
    (hi : svc.GetInterval > 0)
    (h3 : escapeSystemdExec lp ap svc.Command svc.Args = .ok e) :
    installSystemd lp ap home svc = .ok
      [.mkdirAll (userSystemdDir home), .mkdirAll (linuxLogDir home),
       .writeFile (linuxServicePath home svc.Name) (linuxServiceContent home svc e),
       .writeFile (linuxTimerPath home svc.Name) (linuxTimerContent svc),
       .runCmd [gs "systemctl", gs "--user", gs "daemon-reload"],
       .runCmd [gs "systemctl", gs "--user", gs "enable",
         gs "nazim-" ++ normalizeServiceName svc.Name ++ gs ".timer"],
       .runCmd [gs "systemctl", gs "--user", gs "start",
         gs "nazim-" ++ normalizeServiceName svc.Name ++ gs ".timer"]] ∧
    (∃ pre post,
      linuxServiceContent home svc e = pre ++ gs "Type=oneshot\n" ++ e ++ gs "\n" ++ post) ∧
    (∃ a b, linuxTimerContent svc =
      a ++ gs "OnBootSec=" ++ formatSystemdDuration svc.GetInterval ++
      gs "\nOnUnitActiveSec=" ++ formatSystemdDuration svc.GetInterval ++ b) ∧
    (∀ svc2 e2, svc2.GetInterval = 0 → svc2.OnStartup = true →
      escapeSystemdExec lp ap svc2.Command svc2.Args = .ok e2 →
      installSystemd lp ap home svc2 = .ok
        [.mkdirAll (userSystemdDir home), .mkdirAll (linuxLogDir home),
         .writeFile (linuxServicePath home svc2.Name) (linuxServiceContent home svc2 e2),
         .runCmd [gs "systemctl", gs "--user", gs "daemon-reload"],
         .runCmd [gs "systemctl", gs "--user", gs "enable",
           gs "nazim-" ++ normalizeServiceName svc2.Name ++ gs ".service"]]) := by
  refine ⟨?_, ?_, ?_, ?_⟩
  · simp [installSystemd, h3, hi, pure, Except.pure, Bind.bind, Except.bind]
  · refine ⟨gs "[Unit]\nDescription=Nazim Service: " ++ escapeSystemdValue svc.Name ++
      gs "\nAfter=network.target\n\n[Service]\n",
      (if svc.WorkDir ≠ [] then
        gs "WorkingDirectory=" ++ escapeSystemdValue svc.WorkDir ++ gs "\n"
      else []) ++
      gs "StandardOutput=append:" ++ linuxLogPath home svc.Name ++ gs "\n" ++
      gs "StandardError=append:" ++ linuxLogPath home svc.Name ++ gs "\n\n" ++
      gs "[Install]\nWantedBy=default.target\n", ?_⟩
    have hsplit : gs "\nAfter=network.target\n\n[Service]\nType=oneshot\n" =
        gs "\nAfter=network.target\n\n[Service]\n" ++ gs "Type=oneshot\n" := by decide
    simp [linuxServiceContent, hsplit, List.append_assoc]
  · refine ⟨gs "[Unit]\nDescription=Timer for Nazim Service: " ++ escapeSystemdValue svc.Name ++
      gs "\n\n[Timer]\n", gs "\n\n[Install]\nWantedBy=timers.target\n", ?_⟩
    have hsplit : gs "\n\n[Timer]\nOnBootSec=" = gs "\n\n[Timer]\n" ++ gs "OnBootSec=" := by decide
    simp [linuxTimerContent, hsplit, List.append_assoc]
  · intro svc2 e2 h0 hs h4
    have hni : ¬ svc2.GetInterval > 0 := by omega
    simp [installSystemd, h4, hni, h0, hs, pure, Except.pure, Bind.bind, Except.bind]

/-- C7 (witness): the spec's backup example — `/usr/bin/tar` every hour
— produces the quoted `ExecStart` line and a timer whose
`OnUnitActiveSec` is `1h`. -/
theorem installSystemd_interval_trace_witness :
    installSystemd (fun _ => none) (fun _ => none) (gs "/home/u")
      (Service.mk (gs "backup") (gs "/usr/bin/tar") [gs "-czf", gs "out.tgz", gs "/data"]
        [] false false (3600 * 1000000000) true []) = .ok
      [.mkdirAll (userSystemdDir (gs "/home/u")), .mkdirAll (linuxLogDir (gs "/home/u")),
       .writeFile (linuxServicePath (gs "/home/u") (gs "backup"))
         (linuxServiceContent (gs "/home/u")
           (Service.mk (gs "backup") (gs "/usr/bin/tar") [gs "-czf", gs "out.tgz", gs "/data"]
             [] false false (3600 * 1000000000) true [])
           (gs "ExecStart=\"/usr/bin/tar\" \"-czf\" \"out.tgz\" \"/data\"")),
       .writeFile (linuxTimerPath (gs "/home/u") (gs "backup"))
         (linuxTimerContent
           (Service.mk (gs "backup") (gs "/usr/bin/tar") [gs "-czf", gs "out.tgz", gs "/data"]
             [] false false (3600 * 1000000000) true [])),
       .runCmd [gs "systemctl", gs "--user", gs "daemon-reload"],
       .runCmd [gs "systemctl", gs "--user", gs "enable",
         gs "nazim-" ++ normalizeServiceName (gs "backup") ++ gs ".timer"],
       .runCmd [gs "systemctl", gs "--user", gs "start",
         gs "nazim-" ++ normalizeServiceName (gs "backup") ++ gs ".timer"]] ∧
    linuxTimerContent
        (Service.mk (gs "backup") (gs "/usr/bin/tar") [gs "-czf", gs "out.tgz", gs "/data"]
          [] false false (3600 * 1000000000) true [])
      = gs "[Unit]\nDescription=Timer for Nazim Service: backup\n\n[Timer]\nOnBootSec=1h\nOnUnitActiveSec=1h\n\n[Install]\nWantedBy=timers.target\n" := by
  refine ⟨(installSystemd_interval_trace (fun _ => none) (fun _ => none) (gs "/home/u")
    (Service.mk (gs "backup") (gs "/usr/bin/tar") [gs "-czf", gs "out.tgz", gs "/data"]
      [] false false (3600 * 1000000000) true [])
    (gs "ExecStart=\"/usr/bin/tar\" \"-czf\" \"out.tgz\" \"/data\"")
    (by norm_num [Service.GetInterval]) (by decide)).1, by decide⟩

set_option maxRecDepth 8000 in
/-- C3 (counterexample): the Linux `Install` of a valid interval
descriptor performs no uninstall of the prior same-named definition: its
effect trace removes no file, and the `Uninstall` sequence is not a
prefix of it — refuting the claim for "every adapter". -/
theorem installSystemd_no_prior_uninstall :
    installSystemd (fun _ => none) (fun _ => none) (gs "/home/u")
      (Service.mk (gs "backup") (gs "/usr/bin/tar") [gs "-czf", gs "out.tgz", gs "/data"]
        [] false false (3600 * 1000000000) true [])
      = .ok
      [.mkdirAll (userSystemdDir (gs "/home/u")), .mkdirAll (linuxLogDir (gs "/home/u")),
       .writeFile (linuxServicePath (gs "/home/u") (gs "backup"))
         (linuxServiceContent (gs "/home/u")
           (Service.mk (gs "backup") (gs "/usr/bin/tar") [gs "-czf", gs "out.tgz", gs "/data"]
             [] false false (3600 * 1000000000) true [])
           (gs "ExecStart=\"/usr/bin/tar\" \"-czf\" \"out.tgz\" \"/data\"")),
       .writeFile (linuxTimerPath (gs "/home/u") (gs "backup"))
         (linuxTimerContent
           (Service.mk (gs "backup") (gs "/usr/bin/tar") [gs "-czf", gs "out.tgz", gs "/data"]
             [] false false (3600 * 1000000000) true [])),
       .runCmd [gs "systemctl", gs "--user", gs "daemon-reload"],
       .runCmd [gs "systemctl", gs "--user", gs "enable", gs "nazim-backup.timer"],
       .runCmd [gs "systemctl", gs "--user", gs "start", gs "nazim-backup.timer"]] ∧
    ([Effect.mkdirAll (userSystemdDir (gs "/home/u")), .mkdirAll (linuxLogDir (gs "/home/u")),
       .writeFile (linuxServicePath (gs "/home/u") (gs "backup"))
         (linuxServiceContent (gs "/home/u")
           (Service.mk (gs "backup") (gs "/usr/bin/tar") [gs "-czf", gs "out.tgz", gs "/data"]
             [] false false (3600 * 1000000000) true [])
           (gs "ExecStart=\"/usr/bin/tar\" \"-czf\" \"out.tgz\" \"/data\"")),
       .writeFile (linuxTimerPath (gs "/home/u") (gs "backup"))
         (linuxTimerContent
           (Service.mk (gs "backup") (gs "/usr/bin/tar") [gs "-czf", gs "out.tgz", gs "/data"]
             [] false false (3600 * 1000000000) true [])),
       .runCmd [gs "systemctl", gs "--user", gs "daemon-reload"],
       .runCmd [gs "systemctl", gs "--user", gs "enable", gs "nazim-backup.timer"],
       .runCmd [gs "systemctl", gs "--user", gs "start", gs "nazim-backup.timer"]].all
      (fun e => match e with | .removeFile _ => false | _ => true)) = true ∧
    ¬ (linuxUninstallEffects (gs "/home/u") (gs "backup")).isPrefixOf
      [Effect.mkdirAll (userSystemdDir (gs "/home/u")), .mkdirAll (linuxLogDir (gs "/home/u")),
       .writeFile (linuxServicePath (gs "/home/u") (gs "backup"))
         (linuxServiceContent (gs "/home/u")
           (Service.mk (gs "backup") (gs "/usr/bin/tar") [gs "-czf", gs "out.tgz", gs "/data"]
             [] false false (3600 * 1000000000) true [])
           (gs "ExecStart=\"/usr/bin/tar\" \"-czf\" \"out.tgz\" \"/data\"")),
       .writeFile (linuxTimerPath (gs "/home/u") (gs "backup"))
         (linuxTimerContent
           (Service.mk (gs "backup") (gs "/usr/bin/tar") [gs "-czf", gs "out.tgz", gs "/data"]
             [] false false (3600 * 1000000000) true [])),
       .runCmd [gs "systemctl", gs "--user", gs "daemon-reload"],
       .runCmd [gs "systemctl", gs "--user", gs "enable", gs "nazim-backup.timer"],
       .runCmd [gs "systemctl", gs "--user", gs "start", gs "nazim-backup.timer"]] := by
  refine ⟨by decide, by decide, by decide⟩

/-- C3 (amended): only the Windows `Install` begins with the
`Uninstall` of the same-named task; the Linux and macOS installers
instead overwrite the unit/plist files at their deterministic paths, so
after two same-named installs the on-disk definition still reflects only
the second call. -/
theorem install_overwrite_semantics :
    (∀ (appdata : GoStr) (svc : Service),
      List.take 2 (windowsInstallEffects appdata svc) = windowsUninstallEffects appdata svc.Name) ∧
    (∀ (lp ap : GoStr → Option GoStr) (home : GoStr) (s1 s2 : Service)
        (fs : GoStr → Option GoStr) (e1 e2 : GoStr) (t1 t2 : List Effect),
      s2.Name = s1.Name →
      s1.GetInterval > 0 → s2.GetInterval > 0 →
      escapeSystemdExec lp ap s1.Command s1.Args = .ok e1 →
      escapeSystemdExec lp ap s2.Command s2.Args = .ok e2 →
      installSystemd lp ap home s1 = .ok t1 →
      installSystemd lp ap home s2 = .ok t2 →
      applyEffects (applyEffects fs t1) t2 (linuxServicePath home s2.Name)
        = some (linuxServiceContent home s2 e2) ∧
      applyEffects (applyEffects fs t1) t2 (linuxTimerPath home s2.Name)
        = some (linuxTimerContent s2)) ∧
    (∀ (home : GoStr) (s1 s2 : Service) (fs : GoStr → Option GoStr),
      s2.Name = s1.Name →
      applyEffects (applyEffects fs (darwinInstallEffects home s1))
        (darwinInstallEffects home s2) (darwinPlistPath home s2.Name)
        = some (darwinPlistContent home s2)) := by
  refine ⟨fun appdata svc => rfl, ?_, ?_⟩
  · intro lp ap home s1 s2 fs e1 e2 t1 t2 hname hi1 hi2 hesc1 hesc2 ht1 ht2
    have hred : installSystemd lp ap home s2 = .ok
        [.mkdirAll (userSystemdDir home), .mkdirAll (linuxLogDir home),
         .writeFile (linuxServicePath home s2.Name) (linuxServiceContent home s2 e2),
         .writeFile (linuxTimerPath home s2.Name) (linuxTimerContent s2),
         .runCmd [gs "systemctl", gs "--user", gs "daemon-reload"],
         .runCmd [gs "systemctl", gs "--user", gs "enable",
           gs "nazim-" ++ normalizeServiceName s2.Name ++ gs ".timer"],
         .runCmd [gs "systemctl", gs "--user", gs "start",
           gs "nazim-" ++ normalizeServiceName s2.Name ++ gs ".timer"]] := by
      simp [installSystemd, hesc2, hi2, pure, Except.pure, Bind.bind, Except.bind]
    rw [hred] at ht2
    injection ht2 with ht2
    subst ht2
    constructor
    · simp [applyEffects, applyEffect,
        if_neg (linuxServicePath_ne_timerPath home s2.Name)]
    · simp [applyEffects, applyEffect]
  · intro home s1 s2 fs hname
    simp [applyEffects, applyEffect, darwinInstallEffects]

set_option maxRecDepth 8000 in
/-- C3 (witness): two same-named Linux installs with different
commands leave the second command's unit body on disk. -/
theorem install_overwrite_semantics_witness :
    applyEffects
      (applyEffects (fun _ => none)
        [.mkdirAll (userSystemdDir (gs "/h")), .mkdirAll (linuxLogDir (gs "/h")),
         .writeFile (linuxServicePath (gs "/h") (gs "job"))
           (linuxServiceContent (gs "/h")
             (Service.mk (gs "job") (gs "/bin/a") [] [] false false (60 * 1000000000) true [])
             (gs "ExecStart=\"/bin/a\"")),
         .writeFile (linuxTimerPath (gs "/h") (gs "job"))
           (linuxTimerContent
             (Service.mk (gs "job") (gs "/bin/a") [] [] false false (60 * 1000000000) true [])),
         .runCmd [gs "systemctl", gs "--user", gs "daemon-reload"],
         .runCmd [gs "systemctl", gs "--user", gs "enable", gs "nazim-job.timer"],
         .runCmd [gs "systemctl", gs "--user", gs "start", gs "nazim-job.timer"]])
      [.mkdirAll (userSystemdDir (gs "/h")), .mkdirAll (linuxLogDir (gs "/h")),
       .writeFile (linuxServicePath (gs "/h") (gs "job"))
         (linuxServiceContent (gs "/h")
           (Service.mk (gs "job") (gs "/bin/b") [] [] false false (60 * 1000000000) true [])
           (gs "ExecStart=\"/bin/b\"")),
       .writeFile (linuxTimerPath (gs "/h") (gs "job"))
         (linuxTimerContent
           (Service.mk (gs "job") (gs "/bin/b") [] [] false false (60 * 1000000000) true [])),
       .runCmd [gs "systemctl", gs "--user", gs "daemon-reload"],
       .runCmd [gs "systemctl", gs "--user", gs "enable", gs "nazim-job.timer"],
       .runCmd [gs "systemctl", gs "--user", gs "start", gs "nazim-job.timer"]]
      (linuxServicePath (gs "/h") (gs "job"))
      = some (linuxServiceContent (gs "/h")
          (Service.mk (gs "job") (gs "/bin/b") [] [] false false (60 * 1000000000) true [])
          (gs "ExecStart=\"/bin/b\"")) := by
  have h := install_overwrite_semantics.2.1 (fun _ => none) (fun _ => none) (gs "/h")
    (Service.mk (gs "job") (gs "/bin/a") [] [] false false (60 * 1000000000) true [])
    (Service.mk (gs "job") (gs "/bin/b") [] [] false false (60 * 1000000000) true [])
    (fun _ => none) (gs "ExecStart=\"/bin/a\"") (gs "ExecStart=\"/bin/b\"")
    [.mkdirAll (userSystemdDir (gs "/h")), .mkdirAll (linuxLogDir (gs "/h")),
     .writeFile (linuxServicePath (gs "/h") (gs "job"))
       (linuxServiceContent (gs "/h")
         (Service.mk (gs "job") (gs "/bin/a") [] [] false false (60 * 1000000000) true [])
         (gs "ExecStart=\"/bin/a\"")),
     .writeFile (linuxTimerPath (gs "/h") (gs "job"))
       (linuxTimerContent
         (Service.mk (gs "job") (gs "/bin/a") [] [] false false (60 * 1000000000) true [])),
     .runCmd [gs "systemctl", gs "--user", gs "daemon-reload"],
     .runCmd [gs "systemctl", gs "--user", gs "enable", gs "nazim-job.timer"],
     .runCmd [gs "systemctl", gs "--user", gs "start", gs "nazim-job.timer"]]
    [.mkdirAll (userSystemdDir (gs "/h")), .mkdirAll (linuxLogDir (gs "/h")),
     .writeFile (linuxServicePath (gs "/h") (gs "job"))
       (linuxServiceContent (gs "/h")
         (Service.mk (gs "job") (gs "/bin/b") [] [] false false (60 * 1000000000) true [])
         (gs "ExecStart=\"/bin/b\"")),
     .writeFile (linuxTimerPath (gs "/h") (gs "job"))
       (linuxTimerContent
         (Service.mk (gs "job") (gs "/bin/b") [] [] false false (60 * 1000000000) true [])),
     .runCmd [gs "systemctl", gs "--user", gs "daemon-reload"],
     .runCmd [gs "systemctl", gs "--user", gs "enable", gs "nazim-job.timer"],
     .runCmd [gs "systemctl", gs "--user", gs "start", gs "nazim-job.timer"]]
    rfl (by norm_num [Service.GetInterval]) (by norm_num [Service.GetInterval])
    (by decide) (by decide) (by decide) (by decide)
  exact h.1

theorem mem_replaceCharWith {x c : Char} {r s : GoStr}
    (h : x ∈ replaceCharWith c r s) : x ∈ r ∨ (x ∈ s ∧ x ≠ c) := by
  induction s with
  | nil => simp [replaceCharWith] at h
  | cons y ys ih =>
    by_cases hy : y = c
    · simp only [replaceCharWith, if_pos hy, List.mem_append] at h
      rcases h with h | h
      · exact Or.inl h
      · rcases ih h with h | ⟨h1, h2⟩
        · exact Or.inl h
        · exact Or.inr ⟨List.mem_cons_of_mem y h1, h2⟩
    · simp only [replaceCharWith, if_neg hy, List.mem_cons] at h
      rcases h with rfl | h
      · exact Or.inr ⟨List.mem_cons_self x ys, fun hxc => hy hxc⟩
      · rcases ih h with h | ⟨h1, h2⟩
        · exact Or.inl h
        · exact Or.inr ⟨List.mem_cons_of_mem y h1, h2⟩

theorem quoteSystemdArg_no_newline (s : GoStr) :
    '\n' ∉ quoteSystemdArg s ∧ '\r' ∉ quoteSystemdArg s := by
  constructor
  · intro h
    simp only [quoteSystemdArg, List.mem_append] at h
    rcases h with (h | h) | h
    · exact absurd h (by decide)
    · rcases mem_replaceCharWith h with h' | ⟨h', _⟩
      · exact absurd h' (by decide)
      · rcases mem_replaceCharWith h' with h'' | ⟨h'', _⟩
        · exact absurd h'' (by decide)
        · rcases mem_replaceCharWith h'' with h3 | ⟨_, hne⟩
          · exact absurd h3 (by decide)
          · exact hne rfl
    · exact absurd h (by decide)
  · intro h
    simp only [quoteSystemdArg, List.mem_append] at h
    rcases h with (h | h) | h
    · exact absurd h (by decide)
    · rcases mem_replaceCharWith h with h' | ⟨h', _⟩
      · exact absurd h' (by decide)
      · rcases mem_replaceCharWith h' with h'' | ⟨_, hne⟩
        · exact absurd h'' (by decide)
        · exact hne rfl
    · exact absurd h (by decide)

theorem mem_strJoin {x : Char} {sep : GoStr} {ls : List GoStr}
    (h : x ∈ strJoin sep ls) : x ∈ sep ∨ ∃ l ∈ ls, x ∈ l := by
  induction ls with
  | nil => simp [strJoin] at h
  | cons a rest ih =>
    cases rest with
    | nil =>
      right
      exact ⟨a, List.mem_cons_self a [], by simpa [strJoin] using h⟩
    | cons b rest2 =>
      simp only [strJoin, List.mem_append] at h
      rcases h with (h | h) | h
      · exact Or.inr ⟨a, List.mem_cons_self a _, h⟩
      · exact Or.inl h
      · rcases ih h with h | ⟨l, hl, hx⟩
        · exact Or.inl h
        · exact Or.inr ⟨l, List.mem_cons_of_mem a hl, hx⟩

theorem quoteSystemdArgs_ok_mem {args : List GoStr} {qs : List GoStr}
    (h : quoteSystemdArgs args = .ok qs) :
    ∀ q ∈ qs, ∃ a ∈ args, q = quoteSystemdArg a := by
  induction args generalizing qs with
  | nil =>
    simp only [quoteSystemdArgs] at h
    injection h with h
    subst h
    intro q hq
    simp at hq
  | cons a rest ih =>
    simp only [quoteSystemdArgs] at h
    split_ifs at h
    rcases hr : quoteSystemdArgs rest with e | qs'
    · rw [hr] at h
      exact absurd h (by simp)
    · rw [hr] at h
      injection h with h
      subst h
      intro q hq
      rcases List.mem_cons.mp hq with rfl | hq
      · exact ⟨a, List.mem_cons_self a rest, rfl⟩
      · rcases ih hr q hq with ⟨a', ha', hqa⟩
        exact ⟨a', List.mem_cons_of_mem a ha', hqa⟩

theorem quoteSystemdArgs_error_of_bad {args : List GoStr}
    (h : ∃ a ∈ args, containsAnyOf a (gs "\n\r") = true) :
    ∃ e, quoteSystemdArgs args = .error e := by
  induction args with
  | nil => simp at h
  | cons a rest ih =>
    rcases h with ⟨b, hb, hbad⟩
    rcases List.mem_cons.mp hb with rfl | hb
    · exact ⟨"argument cannot contain newlines", by simp [quoteSystemdArgs, hbad]⟩
    · by_cases ha : containsAnyOf a (gs "\n\r") = true
      · exact ⟨"argument cannot contain newlines", by simp [quoteSystemdArgs, ha]⟩
      · rcases ih ⟨b, hb, hbad⟩ with ⟨e, he⟩
        refine ⟨e, ?_⟩
        simp only [quoteSystemdArgs, if_neg ha, he]

theorem execLine_no_newline (cp : GoStr) (qs : List GoStr)
    (hqs : ∀ q ∈ qs, ∃ a, q = quoteSystemdArg a) :
    '\n' ∉ gs "ExecStart=" ++ strJoin (gs " ") (quoteSystemdArg cp :: qs) ∧
    '\r' ∉ gs "ExecStart=" ++ strJoin (gs " ") (quoteSystemdArg cp :: qs) := by
  constructor <;> intro h <;> rcases List.mem_append.mp h with h | h
  · exact absurd h (by decide)
  · rcases mem_strJoin h with h | ⟨l, hl, hx⟩
    · exact absurd h (by decide)
    · rcases List.mem_cons.mp hl with rfl | hl
      · exact (quoteSystemdArg_no_newline cp).1 hx
      · rcases hqs l hl with ⟨a, rfl⟩
        exact (quoteSystemdArg_no_newline a).1 hx
  · exact absurd h (by decide)
  · rcases mem_strJoin h with h | ⟨l, hl, hx⟩
    · exact absurd h (by decide)
    · rcases List.mem_cons.mp hl with rfl | hl
      · exact (quoteSystemdArg_no_newline cp).2 hx
      · rcases hqs l hl with ⟨a, rfl⟩
        exact (quoteSystemdArg_no_newline a).2 hx

/-- C6: the systemd escaper fails whenever the command contains a
newline or carriage return (first check) or any argument does (per-arg
check, whichever error path fires first), and every successfully
produced `ExecStart` line is free of raw newline and carriage-return
characters — nothing is truncated or embedded. -/
theorem escapeSystemdExec_newline_safety (lp ap : GoStr → Option GoStr)
    (cmd : GoStr) (args : List GoStr) :
    (containsAnyOf cmd (gs "\n\r") = true →
      escapeSystemdExec lp ap cmd args = .error "command cannot contain newlines") ∧
    ((∃ a ∈ args, containsAnyOf a (gs "\n\r") = true) →
      ∃ err, escapeSystemdExec lp ap cmd args = .error err) ∧
    (∀ out, escapeSystemdExec lp ap cmd args = .ok out →
      '\n' ∉ out ∧ '\r' ∉ out) := by
  refine ⟨fun hc => ?_, fun hbad => ?_, fun out hout => ?_⟩
  · simp [escapeSystemdExec, hc, throw, throwThe, MonadExceptOf.throw, Bind.bind, Except.bind]
  · by_cases hc : containsAnyOf cmd (gs "\n\r") = true
    · exact ⟨"command cannot contain newlines",
        by simp [escapeSystemdExec, hc, throw, throwThe, MonadExceptOf.throw, Bind.bind, Except.bind]⟩
    · have hc' : containsAnyOf cmd (gs "\n\r") = false := by simpa using hc
      rcases quoteSystemdArgs_error_of_bad hbad with ⟨e, he⟩
      by_cases habs : filepathIsAbs cmd = true
      · exact ⟨e, by simp [escapeSystemdExec, hc', habs, he, pure, Except.pure, Bind.bind, Except.bind]⟩
      · have habs' : filepathIsAbs cmd = false := by simpa using habs
        rcases hlp : lp cmd with _ | p
        · rcases hap : ap cmd with _ | p2
          · exact ⟨"cannot resolve command path",
              by simp [escapeSystemdExec, hc', habs', hlp, hap, throw, throwThe,
                MonadExceptOf.throw, Bind.bind, Except.bind, pure, Except.pure]⟩
          · exact ⟨e, by simp [escapeSystemdExec, hc', habs', hlp, hap, he, pure, Except.pure,
              Bind.bind, Except.bind]⟩
        · exact ⟨e, by simp [escapeSystemdExec, hc', habs', hlp, he, pure, Except.pure,
            Bind.bind, Except.bind]⟩
  · by_cases hc : containsAnyOf cmd (gs "\n\r") = true
    · simp [escapeSystemdExec, hc, throw, throwThe, MonadExceptOf.throw,
        Bind.bind, Except.bind] at hout
    · have hc' : containsAnyOf cmd (gs "\n\r") = false := by simpa using hc
      rcases hq : quoteSystemdArgs args with e | qs
      · by_cases habs : filepathIsAbs cmd = true
        · simp [escapeSystemdExec, hc', habs, hq, pure, Except.pure, Bind.bind, Except.bind] at hout
        · have habs' : filepathIsAbs cmd = false := by simpa using habs
          rcases hlp : lp cmd with _ | p
          · rcases hap : ap cmd with _ | p2
            · simp [escapeSystemdExec, hc', habs', hlp, hap, throw, throwThe,
                MonadExceptOf.throw, Bind.bind, Except.bind, pure, Except.pure] at hout
            · simp [escapeSystemdExec, hc', habs', hlp, hap, hq, pure, Except.pure,
                Bind.bind, Except.bind] at hout
          · simp [escapeSystemdExec, hc', habs', hlp, hq, pure, Except.pure,
              Bind.bind, Except.bind] at hout
      · have hmem : ∀ q ∈ qs, ∃ a, q = quoteSystemdArg a := by
          intro q hqq
          rcases quoteSystemdArgs_ok_mem hq q hqq with ⟨a, _, hqa⟩
          exact ⟨a, hqa⟩
        by_cases habs : filepathIsAbs cmd = true
        · simp [escapeSystemdExec, hc', habs, hq, pure, Except.pure, Bind.bind, Except.bind] at hout
          rw [← hout]
          exact execLine_no_newline cmd qs hmem
        · have habs' : filepathIsAbs cmd = false := by simpa using habs
          rcases hlp : lp cmd with _ | p
          · rcases hap : ap cmd with _ | p2
            · simp [escapeSystemdExec, hc', habs', hlp, hap, throw, throwThe,
                MonadExceptOf.throw, Bind.bind, Except.bind, pure, Except.pure] at hout
            · simp [escapeSystemdExec, hc', habs', hlp, hap, hq, pure, Except.pure,
                Bind.bind, Except.bind] at hout
              rw [← hout]
              exact execLine_no_newline p2 qs hmem
          · simp [escapeSystemdExec, hc', habs', hlp, hq, pure, Except.pure,
              Bind.bind, Except.bind] at hout
            rw [← hout]
            exact execLine_no_newline p qs hmem

/-- C6 (witness): the three behaviours at concrete inputs. -/
theorem escapeSystemdExec_newline_safety_witness :
    escapeSystemdExec (fun _ => none) (fun _ => none) (gs "/bin/echo\nEvil=1") []
      = .error "command cannot contain newlines" ∧
    (∃ err, escapeSystemdExec (fun _ => none) (fun _ => none) (gs "/bin/echo") [gs "a\nb"]
      = .error err) ∧
    ('\n' ∉ gs "ExecStart=\"/bin/echo\" \"hi\"" ∧ '\r' ∉ gs "ExecStart=\"/bin/echo\" \"hi\"") := by
  refine ⟨(escapeSystemdExec_newline_safety (fun _ => none) (fun _ => none)
      (gs "/bin/echo\nEvil=1") []).1 (by decide),
    (escapeSystemdExec_newline_safety (fun _ => none) (fun _ => none)
      (gs "/bin/echo") [gs "a\nb"]).2.1 ⟨gs "a\nb", by simp, by decide⟩,
    (escapeSystemdExec_newline_safety (fun _ => none) (fun _ => none)
      (gs "/bin/echo") [gs "hi"]).2.2 (gs "ExecStart=\"/bin/echo\" \"hi\"") (by decide)⟩

theorem tok_nil_none (m : TokMode) : tokenizeAux [] m none = [] := by cases m <;> rfl

theorem tok_nil_some (m : TokMode) (t : GoStr) : tokenizeAux [] m (some t) = [t] := by
  cases m <;> rfl

theorem tok_open (rest : List Char) (cur : Option GoStr) :
    tokenizeAux ('"' :: rest) .out cur = tokenizeAux rest .inq (some (cur.getD [])) := rfl

theorem tok_sep_none (rest : List Char) :
    tokenizeAux (' ' :: rest) .out none = tokenizeAux rest .out none := rfl

theorem tok_sep_some (rest : List Char) (t : GoStr) :
    tokenizeAux (' ' :: rest) .out (some t) = t :: tokenizeAux rest .out none := rfl

theorem tok_char (c : Char) (rest : List Char) (cur : Option GoStr)
    (hq : c ≠ '"') (hs : c ≠ ' ') (ht : c ≠ '\t') :
    tokenizeAux (c :: rest) .out cur = tokenizeAux rest .out (some (cur.getD [] ++ [c])) := by
  simp [tokenizeAux, hq, hs, ht]

theorem tok_q_quote (rest : List Char) (cur : Option GoStr) :
    tokenizeAux ('"' :: rest) .inq cur = tokenizeAux rest .afterq cur := rfl

theorem tok_q_char (c : Char) (rest : List Char) (cur : Option GoStr) (h : c ≠ '"') :
    tokenizeAux (c :: rest) .inq cur = tokenizeAux rest .inq (some (cur.getD [] ++ [c])) := by
  simp [tokenizeAux, h]

theorem tok_aq_dup (rest : List Char) (cur : Option GoStr) :
    tokenizeAux ('"' :: rest) .afterq cur
      = tokenizeAux rest .inq (some (cur.getD [] ++ ['"'])) := rfl

theorem tok_aq_sep_some (rest : List Char) (t : GoStr) :
    tokenizeAux (' ' :: rest) .afterq (some t) = t :: tokenizeAux rest .out none := rfl

theorem tok_dup (s : GoStr) : ∀ (rest : List Char) (acc : GoStr),
    tokenizeAux (replaceCharWith '"' (gs "\"\"") s ++ rest) .inq (some acc)
      = tokenizeAux rest .inq (some (acc ++ s)) := by
  induction s with
  | nil => intro rest acc; simp [replaceCharWith]
  | cons c cs ih =>
    intro rest acc
    by_cases hc : c = '"'
    · subst hc
      show tokenizeAux ((gs "\"\"" ++ replaceCharWith '"' (gs "\"\"") cs) ++ rest) .inq (some acc)
        = tokenizeAux rest .inq (some (acc ++ '"' :: cs))
      have : (gs "\"\"" ++ replaceCharWith '"' (gs "\"\"") cs) ++ rest
          = '"' :: '"' :: (replaceCharWith '"' (gs "\"\"") cs ++ rest) := by
        simp [gs]
      rw [this, tok_q_quote, tok_aq_dup, ih]
      simp
    · have hrw : replaceCharWith '"' (gs "\"\"") (c :: cs)
          = c :: replaceCharWith '"' (gs "\"\"") cs := by
        simp [replaceCharWith, hc]
      rw [hrw, List.cons_append, tok_q_char c _ _ hc, ih]
      simp

theorem tok_unquoted (s : GoStr) (h : ∀ c ∈ s, c ≠ '"' ∧ c ≠ ' ' ∧ c ≠ '\t') :
    ∀ (rest : List Char) (acc : GoStr),
    tokenizeAux (s ++ rest) .out (some acc) = tokenizeAux rest .out (some (acc ++ s)) := by
  induction s with
  | nil => intro rest acc; simp
  | cons c cs ih =>
    intro rest acc
    obtain ⟨h1, h2, h3⟩ := h c (List.mem_cons_self c cs)
    rw [List.cons_append, tok_char c _ _ h1 h2 h3,
      ih (fun x hx => h x (List.mem_cons_of_mem c hx))]
    simp

theorem noSpecial_mem (t : GoStr) (h : containsAnyOf t (gs " \t\"&|<>()") = false) :
    ∀ c ∈ t, c ≠ '"' ∧ c ≠ ' ' ∧ c ≠ '\t' := by
  intro c hc
  simp only [containsAnyOf, List.any_eq_false] at h
  have := h c hc
  refine ⟨?_, ?_, ?_⟩ <;> rintro rfl <;> simp [gs] at this

theorem tok_token (t : GoStr) (hne : t ≠ []) :
    (∀ rest, tokenizeAux (escapeWindowsCommand t ++ ' ' :: rest) .out none
        = t :: tokenizeAux rest .out none) ∧
    tokenizeAux (escapeWindowsCommand t) .out none = [t] := by
  by_cases hsp : containsAnyOf t (gs " \t\"&|<>()") = true
  · have hesc : escapeWindowsCommand t
        = '"' :: (replaceCharWith '"' (gs "\"\"") t ++ ['"']) := by
      unfold escapeWindowsCommand
      rw [if_pos hsp]
      simp [gs]
    constructor
    · intro rest
      rw [hesc, List.cons_append, tok_open, List.append_assoc, tok_dup]
      show tokenizeAux ('"' :: (' ' :: rest)) .inq (some ([] ++ t)) = _
      rw [tok_q_quote, List.nil_append, tok_aq_sep_some]
    · rw [hesc, tok_open, tok_dup ]
      show tokenizeAux ['"'] .inq (some ([] ++ t)) = _
      rw [tok_q_quote, List.nil_append, tok_nil_some]
  · have hsp' : containsAnyOf t (gs " \t\"&|<>()") = false := by simpa using hsp
    have hesc : escapeWindowsCommand t = t := by simp [escapeWindowsCommand, hsp']
    have hmem := noSpecial_mem t hsp'
    obtain ⟨c, cs, rfl⟩ : ∃ c cs, t = c :: cs := by
      cases t with
      | nil => exact absurd rfl hne
      | cons c cs => exact ⟨c, cs, rfl⟩
    obtain ⟨h1, h2, h3⟩ := hmem c (List.mem_cons_self c cs)
    constructor
    · intro rest
      rw [hesc, List.cons_append, tok_char c _ _ h1 h2 h3,
        tok_unquoted cs (fun x hx => hmem x (List.mem_cons_of_mem c hx))]
      simp [tok_sep_some]
    · rw [hesc, show (c :: cs : GoStr) = (c :: cs) ++ [] by simp, List.cons_append,
        tok_char c _ _ h1 h2 h3,
        tok_unquoted cs (fun x hx => hmem x (List.mem_cons_of_mem c hx))]
      simp [tok_nil_some]

theorem tok_roundtrip_list (ts : List GoStr) (h : ∀ t ∈ ts, t ≠ []) (hne : ts ≠ []) :
    tokenizeWindows (strJoin (gs " ") (ts.map escapeWindowsCommand)) = ts := by
  induction ts with
  | nil => exact absurd rfl hne
  | cons a rest ih =>
    cases rest with
    | nil =>
      show tokenizeAux (strJoin (gs " ") [escapeWindowsCommand a]) .out none = [a]
      rw [show strJoin (gs " ") [escapeWindowsCommand a] = escapeWindowsCommand a from rfl]
      exact (tok_token a (h a (List.mem_cons_self a []))).2
    | cons b rest2 =>
      show tokenizeAux (strJoin (gs " ")
        (escapeWindowsCommand a :: escapeWindowsCommand b
          :: (rest2.map escapeWindowsCommand))) .out none = a :: b :: rest2
      rw [show strJoin (gs " ")
          (escapeWindowsCommand a :: escapeWindowsCommand b :: (rest2.map escapeWindowsCommand))
          = escapeWindowsCommand a ++ gs " " ++
            strJoin (gs " ") (escapeWindowsCommand b :: (rest2.map escapeWindowsCommand)) from rfl,
        List.append_assoc,
        show gs " " ++ strJoin (gs " ") (escapeWindowsCommand b :: (rest2.map escapeWindowsCommand))
          = ' ' :: strJoin (gs " ") (escapeWindowsCommand b :: (rest2.map escapeWindowsCommand))
          from rfl,
        (tok_token a (h a (List.mem_cons_self a _))).1]
      have := ih (fun t ht => h t (List.mem_cons_of_mem a ht)) (by simp)
      rw [show tokenizeAux (strJoin (gs " ")
          (escapeWindowsCommand b :: (rest2.map escapeWindowsCommand))) .out none
          = tokenizeWindows (strJoin (gs " ") ((b :: rest2).map escapeWindowsCommand)) from rfl,
        this]

theorem buildWindowsCommand_eq_strJoin (cmd : GoStr) (args : List GoStr) :
    buildWindowsCommand cmd args
      = strJoin (gs " ") ((cmd :: args).map escapeWindowsCommand) := by
  cases args with
  | nil => rfl
  | cons a rest => rfl

/-- C5: escaping a command and argument list with
`escapeWindowsCommand`/`buildWindowsCommand` and re-tokenizing the
space-joined command line under Windows quote rules returns exactly the
original list, for any non-empty command and non-empty arguments; and
every token containing one of space/tab/quote/`&|<>()` is wrapped in
double quotes with embedded quotes doubled. -/
theorem buildWindowsCommand_roundtrip (cmd : GoStr) (args : List GoStr)
    (h1 : cmd ≠ []) (h2 : ∀ a ∈ args, a ≠ []) :
    tokenizeWindows (buildWindowsCommand cmd args) = cmd :: args ∧
    (∀ a : GoStr, containsAnyOf a (gs " \t\"&|<>()") = true →
      escapeWindowsCommand a = gs "\"" ++ replaceCharWith '"' (gs "\"\"") a ++ gs "\"") := by
  constructor
  · rw [buildWindowsCommand_eq_strJoin]
    apply tok_roundtrip_list
    · intro t ht
      rcases List.mem_cons.mp ht with rfl | ht
      · exact h1
      · exact h2 t ht
    · simp
  · intro a ha
    unfold escapeWindowsCommand
    rw [if_pos ha]

/-- C5 (witness): a command with spaces and backslashes plus quoted,
spaced and plain arguments round-trips; the produced command line is
shown literally. -/
theorem buildWindowsCommand_roundtrip_witness :
    tokenizeWindows (buildWindowsCommand (gs "C:\\Program Files\\x.exe")
        [gs "a b", gs "he\"llo", gs "plain"])
      = [gs "C:\\Program Files\\x.exe", gs "a b", gs "he\"llo", gs "plain"] ∧
    buildWindowsCommand (gs "C:\\Program Files\\x.exe") [gs "a b", gs "he\"llo", gs "plain"]
      = gs "\"C:\\Program Files\\x.exe\" \"a b\" \"he\"\"llo\" plain" := by
  refine ⟨(buildWindowsCommand_roundtrip (gs "C:\\Program Files\\x.exe")
      [gs "a b", gs "he\"llo", gs "plain"] (by decide)
      (by intro a ha; fin_cases ha <;> decide)).1, by decide⟩
